import Mathlib

/-!
Verification of the command-template HTTP invocation mechanism of
`src/oauth_http.c` (functions `oauth_exec_shell`, `oauth_exec_post`,
`oauth_exec_get`).  C strings are modelled as `List Char`; `getenv`
results, possibly-NULL pointers and the spawned stream are modelled as
`Option` values; machine buffers are lists with explicit allocation
sizes.
-/

set_option maxRecDepth 100000

namespace Oauth

/-- A C byte string (no terminating NUL included unless stated otherwise). -/
abbrev CStr := List Char

/-- The NUL terminator byte. -/
def NUL : Char := Char.ofNat 0

/-- Does `pat` occur at the head of `hay`?  (Prefix test used by `strstrIdx`.) -/
def matchesAt : CStr → CStr → Bool
  | [], _ => true
  | _ :: _, [] => false
  | a :: as, b :: bs => a == b && matchesAt as bs

/-- Index of the first occurrence of `pat` in `hay`, as C `strstr` computes it
(offset of the returned pointer from the start of the haystack). -/
def strstrIdx (pat : CStr) : CStr → Option Nat
  | [] => if matchesAt pat [] then some 0 else none
  | c :: t => if matchesAt pat (c :: t) then some 0 else (strstrIdx pat t).map (· + 1)

/-- Positional formatting engine of `snprintf` as used by the exec functions.
The only conversions the rewritten templates contain are `%s` (produced by the
in-place rewrite of `%p` / `%u`); `%%` is handled as in C.  Any other `%`
directive is undefined behavior in the source (see the TODO at
`oauth_http.c:251`); the model emits such a directive literally and no theorem
below exercises that branch. -/
def fmt2 : CStr → List CStr → CStr
  | [], _ => []
  | c :: rest, args =>
    if c = '%' then
      match rest, args with
      | [], _ => ['%']
      | 's' :: r2, a :: as => a ++ fmt2 r2 as
      | 's' :: r2, [] => fmt2 r2 []
      | '%' :: r2, as => '%' :: fmt2 r2 as
      | d :: r2, as => '%' :: d :: fmt2 r2 as
    else c :: fmt2 rest args

/-- `BUFSIZ` of stdio, the size of the fixed command buffer `char cmd[BUFSIZ]`
in `oauth_exec_post` / `oauth_exec_get` (glibc value). -/
def BUFSIZ : Nat := 8192

/-- The `"%p"` needle searched for at `oauth_http.c:244`. -/
def pctP : CStr := ['%', 'p']

/-- The `"%u"` needle searched for at `oauth_http.c:245` and `:269`. -/
def pctU : CStr := ['%', 'u']

/-- Modelled from the spec: `VERSION` is supplied by the build system
(`config.h`), which is not under `src/`; the spec (section 6) only requires a
fixed library-identifying user-agent string, and no claim depends on its exact
value. -/
def VERSION : String := "0.1"

/-- `OAUTH_USER_AGENT` macro of `oauth_http.c:37`. -/
def OAUTH_USER_AGENT : String := "liboauth-agent/" ++ VERSION

/-- `_OAUTH_DEF_HTTPCMD`, the built-in POST template (`oauth_http.c:190`). -/
def DEF_HTTPCMD : CStr := ("curl -sA '" ++ OAUTH_USER_AGENT ++ "' -d '%p' '%u' ").toList

/-- `_OAUTH_DEF_HTTPGET`, the built-in GET template (`oauth_http.c:194`). -/
def DEF_HTTPGET : CStr := ("curl -sA '" ++ OAUTH_USER_AGENT ++ "' '%u' ").toList

/-- Failure outcomes of the template resolution / formatting stage.  Both are
reported to the caller as a NULL return; `invalidTemplate` additionally emits
a diagnostic on stderr naming the override environment variable (the
constructor records that name, mirroring the `fprintf` argument). -/
inductive ExecErr where
  | invalidTemplate (envVar : String)
  | nullUrl
deriving DecidableEq

/-- Value substituted for a `%s` conversion given a possibly-NULL `char *`
argument.  ISO C leaves `%s` with a NULL pointer undefined; glibc prints
`(null)`, which the model adopts.  Only the C10 theorem touches the `none`
case, and only to show that `oauth_exec_post` reaches the formatter at all. -/
def printfArg : Option CStr → CStr
  | some s => s
  | none => "(null)".toList

/-- `oauth_exec_post` (`oauth_http.c:236-254`) up to and including the
`snprintf` into `cmd[BUFSIZ]`:  resolves the template (environment override
`env`, else the built-in default), validates that `%p` and `%u` are present,
rewrites both placeholders in place to `%s` (the character after each `%` is
overwritten with `s` via `*(++t1)='s'; *(++t2)='s'`), and formats with the two
arguments ordered by the pointer comparison `t1 > t2`.  `snprintf` keeps at
most `BUFSIZ - 1` characters.  Returns the command string handed to
`oauth_exec_shell`, or the error reported as a NULL return. -/
def oauth_exec_post_cmd (env u p : Option CStr) : Except ExecErr CStr :=
  let cmdtpl := env.getD DEF_HTTPCMD
  match strstrIdx pctP cmdtpl, strstrIdx pctU cmdtpl with
  | some ip, some iu =>
    let t1 := ip + 1
    let t2 := iu + 1
    let tpl2 := (cmdtpl.set t1 's').set t2 's'
    Except.ok ((fmt2 tpl2 [if t1 > t2 then printfArg u else printfArg p,
                           if t1 > t2 then printfArg p else printfArg u]).take (BUFSIZ - 1))
  | _, _ => Except.error (ExecErr.invalidTemplate "OAUTH_HTTP_CMD")

/-- Content of a buffer read as a C string: the bytes before the first NUL. -/
def cstrOf (buf : CStr) : CStr := buf.takeWhile (fun c => c != NUL)

/-- `strcat(dst, src)`: `src` and a terminating NUL are copied starting at the
first NUL of `dst`.  The model keeps the bytes up to that point, the copied
`src`, and the new terminator (bytes that previously sat beyond the
terminator can never be observed again through the string and are dropped;
the C buffer has a fixed allocation, so writes past it — which this model
represents by the list simply growing — are heap overflows in the source). -/
def strcatBuf (dst src : CStr) : CStr := dst.takeWhile (fun c => c != NUL) ++ src ++ [NUL]

/-- `oauth_exec_get` (`oauth_http.c:260-282`) up to and including the
`snprintf`:  NULL-URL guard first (`if (!u) return (NULL);`), then template
resolution and validation of `%u`, in-place rewrite to `%s`, optional
`url?query` construction by `strcat` onto a fresh `xmalloc` buffer, and the
formatting into `cmd[BUFSIZ]`.

Modelled from the spec: `xmalloc` (declared in `xmalloc.h`, which is not
under `src/`) is a plain `malloc` wrapper, so the fresh buffer's initial
contents are indeterminate; they are passed in as the `fresh` parameter (in C
the buffer has `strlen(u)+strlen(q)+2` bytes). -/
def oauth_exec_get_cmd (fresh : CStr) (env u q : Option CStr) : Except ExecErr CStr :=
  match u with
  | none => Except.error ExecErr.nullUrl
  | some uv =>
    let cmdtpl := env.getD DEF_HTTPGET
    match strstrIdx pctU cmdtpl with
    | none => Except.error (ExecErr.invalidTemplate "OAUTH_HTTP_GET_CMD")
    | some iu =>
      let tpl2 := cmdtpl.set (iu + 1) 's'
      let arg :=
        match q with
        | some qv => cstrOf (strcatBuf (strcatBuf (strcatBuf fresh uv) ['?']) qv)
        | none => uv
      Except.ok ((fmt2 tpl2 [arg]).take (BUFSIZ - 1))

/-- One `fread` event of the capture loop: the allocation before the
`alloc += 1024` growth, the buffer capacity at the moment of the read, and the
number of bytes the read returned. -/
structure ReadEv where
  allocBefore : Nat
  capAtRead : Nat
  nRead : Nat
deriving DecidableEq

/-- Result state of the capture loop of `oauth_exec_shell`. -/
structure LoopOut where
  len : Nat
  alloc : Nat
  data : CStr
  trace : List ReadEv
deriving DecidableEq

/-- The `while (in && rcv > 0 && !feof(in))` loop of `oauth_exec_shell`
(`oauth_http.c:215-220`), for a successfully opened stream.  `todo` is the
part of the subprocess output not yet consumed; `junk` models the
indeterminate bytes `xrealloc` appends when growing the buffer.  Each
iteration grows `alloc` by 1024, reallocates, and then — exactly as the
source line 218 `rcv = fread(data, sizeof(char), 1024, in);` does — stores the
chunk at offset 0 of the buffer (not at offset `len`).  `fread` returns
`min 1024 todo.length` bytes and raises the EOF flag exactly when fewer bytes
than requested remained.  The fuel argument strictly exceeds the number of
iterations any run performs (`oauth_exec_shell` passes `out.length + 2`).
The trace records each read for the capacity-safety theorem. -/
def captureLoop (junk : Char) : Nat → CStr → Nat → Nat → CStr → Nat → Bool → LoopOut
  | 0, _, len, alloc, data, _, _ => ⟨len, alloc, data, []⟩
  | fuel + 1, todo, len, alloc, data, rcv, eof =>
    if 0 < rcv ∧ eof = false then
      let data1 := data ++ List.replicate (alloc + 1024 - data.length) junk
      let n := min 1024 todo.length
      let rest := captureLoop junk fuel (todo.drop n) (len + n) (alloc + 1024)
        (todo.take n ++ data1.drop n) n (decide (todo.length < 1024))
      ⟨rest.len, rest.alloc, rest.data, ⟨alloc, data1.length, n⟩ :: rest.trace⟩
    else ⟨len, alloc, data, []⟩

/-- Outcome of `oauth_exec_shell`.  When `popen` fails the loop guard
`in && ...` is false, `data` remains NULL and `len` remains 0; the function
then executes `pclose(in)` on NULL and the store `data[len] = 0`
(`oauth_http.c:225`) through the NULL pointer: undefined behavior / crash,
recorded by `crashNullDeref`. -/
inductive ShellOut where
  | crashNullDeref
  | buf (len : Nat) (data : CStr)
deriving DecidableEq

/-- `oauth_exec_shell` (`oauth_http.c:206-231`).  `spawn` is the result of
`popen`: `none` when the stream cannot be opened, `some out` with the bytes
the subprocess writes to stdout otherwise.  On success the loop runs, then
`data[len] = 0` plants the terminator. -/
def oauth_exec_shell (junk : Char) (spawn : Option CStr) : ShellOut × List ReadEv :=
  match spawn with
  | none => (ShellOut.crashNullDeref, [])
  | some out =>
    let r := captureLoop junk (out.length + 2) out 0 0 [] 1 false
    (ShellOut.buf r.len (r.data.set r.len NUL), r.trace)

/-- `oauth_exec_post` end to end: formatting followed by
`return oauth_exec_shell(cmd);` (`oauth_http.c:254`).  `oracle` maps a command
line to its `popen` result.  `none` means the function returned NULL before
ever invoking the subprocess runner. -/
def oauth_exec_post_run (oracle : CStr → Option CStr) (junk : Char)
    (env u p : Option CStr) : Option (ShellOut × List ReadEv) :=
  match oauth_exec_post_cmd env u p with
  | Except.error _ => none
  | Except.ok c => some (oauth_exec_shell junk (oracle c))

/-- `oauth_exec_get` end to end (`oauth_http.c:282`). -/
def oauth_exec_get_run (oracle : CStr → Option CStr) (junk : Char) (fresh : CStr)
    (env u q : Option CStr) : Option (ShellOut × List ReadEv) :=
  match oauth_exec_get_cmd fresh env u q with
  | Except.error _ => none
  | Except.ok c => some (oauth_exec_shell junk (oracle c))

/-- A byte-string heap: locations below `next` are allocated.  Used to state
the frame property of the `strdup` private copy (claim C9). -/
structure Store where
  mem : Nat → CStr
  next : Nat

/-- Allocate a fresh location holding `v` (models `strdup`). -/
def Store.alloc (s : Store) (v : CStr) : Store × Nat :=
  (⟨fun k => if k = s.next then v else s.mem k, s.next + 1⟩, s.next)

/-- Overwrite the string at location `k` (models an in-place store). -/
def Store.write (s : Store) (k : Nat) (v : CStr) : Store :=
  ⟨fun j => if j = k then v else s.mem j, s.next⟩

/-- Template resolution of `oauth_exec_post` (`oauth_http.c:238-250`) with the
heap made explicit: read the override (at `envLoc`) or the built-in default,
`strdup` it, validate `%p` / `%u` on the copy, and perform the two in-place
stores `*(++t1) = 's'; *(++t2) = 's'` on the copy's location.  Returns the
final store and the copy's location (`none` when validation failed and the
function returned NULL). -/
def resolve_post_heap (s : Store) (envLoc : Option Nat) : Store × Option Nat :=
  let tplVal := match envLoc with
    | none => DEF_HTTPCMD
    | some l => s.mem l
  let s1 := (s.alloc tplVal).1
  let c := (s.alloc tplVal).2
  match strstrIdx pctP (s1.mem c), strstrIdx pctU (s1.mem c) with
  | some ip, some iu =>
    let s2 := s1.write c ((s1.mem c).set (ip + 1) 's')
    let s3 := s2.write c ((s2.mem c).set (iu + 1) 's')
    (s3, some c)
  | _, _ => (s1, none)

/-- Template resolution of `oauth_exec_get` (`oauth_http.c:263-274`) with the
heap made explicit: like `resolve_post_heap` but validating only `%u` and
performing the single store `*(++t1) = 's'`. -/
def resolve_get_heap (s : Store) (envLoc : Option Nat) : Store × Option Nat :=
  let tplVal := match envLoc with
    | none => DEF_HTTPGET
    | some l => s.mem l
  let s1 := (s.alloc tplVal).1
  let c := (s.alloc tplVal).2
  match strstrIdx pctU (s1.mem c) with
  | some iu =>
    let s2 := s1.write c ((s1.mem c).set (iu + 1) 's')
    (s2, some c)
  | none => (s1, none)

/-- The 1025-byte subprocess output used as failing input for claim C4:
1024 bytes `a` followed by one byte `b`, so the second chunk of the capture
loop lands while a full earlier chunk is in the buffer. -/
def c4out : CStr := List.replicate 1024 'a' ++ ['b']

/-- Helper: a pattern matches at the start of itself followed by anything. -/
theorem matchesAt_append_self (pat r : CStr) : matchesAt pat (pat ++ r) = true := by
  induction pat with
  | nil => rfl
  | cons c cs ih => simp [matchesAt, ih]

/-- Helper: a pattern whose first character differs from the haystack's first
character does not match there. -/
theorem matchesAt_cons_of_ne (a b : Char) (as bs : CStr) (h : a ≠ b) :
    matchesAt (a :: as) (b :: bs) = false := by
  have hb : (a == b) = false := beq_eq_false_iff_ne.mpr h
  simp [matchesAt, hb]

/-- Helper: `strstr` skips a haystack prefix containing no character equal to
the pattern's first character, shifting the reported offset by its length. -/
theorem strstrIdx_append_shift (a : Char) (ps X r : CStr) :
    (∀ c ∈ X, c ≠ a) →
    strstrIdx (a :: ps) (X ++ r) = (strstrIdx (a :: ps) r).map (· + X.length) := by
  induction X with
  | nil =>
    intro _
    simp only [List.nil_append, List.length_nil]
    cases strstrIdx (a :: ps) r <;> simp
  | cons c cs ih =>
    intro hX
    have h1 : matchesAt (a :: ps) (c :: (cs ++ r)) = false :=
      matchesAt_cons_of_ne a c ps (cs ++ r) (Ne.symm (hX c (by simp)))
    have ih' := ih (fun d hd => hX d (List.mem_cons_of_mem _ hd))
    simp only [List.cons_append, strstrIdx, List.append_eq, h1, Bool.false_eq_true,
      if_false, ih']
    cases strstrIdx (a :: ps) r <;> simp [Nat.add_assoc]

/-- Helper: `strstr` finds `"%p"` at offset 0 of `'%' :: 'p' :: r`. -/
theorem strstrIdx_pctP_here (r : CStr) : strstrIdx pctP ('%' :: 'p' :: r) = some 0 := by
  have hm : matchesAt pctP ('%' :: 'p' :: r) = true := matchesAt_append_self pctP r
  simp [strstrIdx, hm]

/-- Helper: `strstr` finds `"%u"` at offset 0 of `'%' :: 'u' :: r`. -/
theorem strstrIdx_pctU_here (r : CStr) : strstrIdx pctU ('%' :: 'u' :: r) = some 0 := by
  have hm : matchesAt pctU ('%' :: 'u' :: r) = true := matchesAt_append_self pctU r
  simp [strstrIdx, hm]

/-- Helper: searching for `"%u"` skips a leading `"%p"`. -/
theorem strstrIdx_pctU_skip (r : CStr) :
    strstrIdx pctU ('%' :: 'p' :: r) = (strstrIdx pctU r).map (· + 2) := by
  have h1 : matchesAt pctU ('%' :: 'p' :: r) = false := by
    have : ('u' == 'p') = false := by decide
    simp [pctU, matchesAt, this]
  have h2 : matchesAt pctU ('p' :: r) = false :=
    matchesAt_cons_of_ne '%' 'p' ['u'] r (by decide)
  simp only [strstrIdx, h1, h2, Bool.false_eq_true, if_false]
  cases strstrIdx pctU r <;> simp [Nat.add_assoc]

/-- Helper: searching for `"%p"` skips a leading `"%u"`. -/
theorem strstrIdx_pctP_skip (r : CStr) :
    strstrIdx pctP ('%' :: 'u' :: r) = (strstrIdx pctP r).map (· + 2) := by
  have h1 : matchesAt pctP ('%' :: 'u' :: r) = false := by
    have : ('p' == 'u') = false := by decide
    simp [pctP, matchesAt, this]
  have h2 : matchesAt pctP ('u' :: r) = false :=
    matchesAt_cons_of_ne '%' 'u' ['p'] r (by decide)
  simp only [strstrIdx, h1, h2, Bool.false_eq_true, if_false]
  cases strstrIdx pctP r <;> simp [Nat.add_assoc]

/-- Helper: `List.set` acting past an appended prefix. -/
theorem set_append_add (X l : CStr) (k : Nat) (v : Char) :
    (X ++ l).set (X.length + k) v = X ++ l.set k v := by
  induction X with
  | nil => simp
  | cons c cs ih =>
    simp only [List.cons_append, List.length_cons]
    rw [show cs.length + 1 + k = (cs.length + k) + 1 from by omega]
    rw [List.set_cons_succ, ih]

/-- Helper: the formatter copies one ordinary character verbatim. -/
theorem fmt2_cons_ne (c : Char) (t : CStr) (args : List CStr) (h : c ≠ '%') :
    fmt2 (c :: t) args = c :: fmt2 t args := by
  rw [fmt2.eq_def]
  simp [h]

/-- Helper: the formatter copies a conversion-free prefix verbatim. -/
theorem fmt2_append_no_pct (X r : CStr) (args : List CStr) :
    (∀ c ∈ X, c ≠ '%') → fmt2 (X ++ r) args = X ++ fmt2 r args := by
  induction X with
  | nil => intro _; rfl
  | cons c cs ih =>
    intro hX
    have hc : c ≠ '%' := hX c (by simp)
    simp only [List.cons_append]
    rw [fmt2_cons_ne c (cs ++ r) args hc]
    rw [ih (fun d hd => hX d (List.mem_cons_of_mem _ hd))]

/-- Helper: the formatter consumes one `%s` conversion with one argument. -/
theorem fmt2_pct_s (r : CStr) (a : CStr) (args : List CStr) :
    fmt2 ('%' :: 's' :: r) (a :: args) = a ++ fmt2 r args := rfl

/-- Helper: a conversion-free format string is emitted verbatim. -/
theorem fmt2_no_pct (X : CStr) (args : List CStr) :
    (∀ c ∈ X, c ≠ '%') → fmt2 X args = X := by
  intro hX
  have h := fmt2_append_no_pct X [] args hX
  have h0 : fmt2 ([] : CStr) args = [] := rfl
  simpa [h0] using h

/-- C3: on spawn failure (`popen` returns NULL) the source does not return
cleanly: the capture loop is skipped, `data` remains NULL, and line 225
`data[len] = 0` writes through the NULL pointer (after `pclose(NULL)`, itself
undefined).  This theorem evaluates the model at the failing input, showing
the run ends in the null-dereference outcome instead of a NULL return. -/
theorem c3_spawn_failure_crash (junk : Char) :
    (oauth_exec_shell junk none).1 = ShellOut.crashNullDeref := rfl

/-- C6: a subprocess that spawns but writes zero bytes yields a valid empty
buffer — the returned value is a buffer (not the crash outcome and not a NULL
return), its logical length is 0, and its byte at offset 0 is the NUL
terminator — for every value of the uninitialized `xrealloc` fill byte. -/
theorem c6_empty_output_buffer (junk : Char) :
    ∃ data, (oauth_exec_shell junk (some [])).1 = ShellOut.buf 0 data ∧
      data.head? = some NUL := by
  exact ⟨_, rfl, rfl⟩

/-- C4 counterexample: for the 1025-byte output `c4out` the returned logical
length does equal the number of bytes read, but the buffer does not hold the
captured bytes: line 218 freads every chunk to offset 0 of the buffer
(`fread(data, ...)`, not `fread(data + len, ...)`), so the second chunk
overwrites the first and the buffer starts with `b` instead of the 1024 `a`
bytes. -/
theorem c4_capture_overwrite :
    ∃ data, (oauth_exec_shell 'J' (some c4out)).1 = ShellOut.buf c4out.length data ∧
      data.take c4out.length ≠ c4out := by
  refine ⟨_, rfl, fun h => absurd (congrArg List.head? h) (by decide)⟩

/-- C7 counterexample: for GET with url `"u"`, query `"q"` and an override
template `"%u"`, when the fresh `xmalloc` buffer happens to hold the (never
initialized) bytes `AAAA`, the `strcat` chain of lines 276-277 appends the
url after that garbage, so the command receives `AAAAu?q` and not the claimed
`u?q` (the source lacks the initial `strcpy`; it `strcat`s onto uninitialized
memory). -/
theorem c7_get_concat_garbage :
    ∃ cmd, oauth_exec_get_cmd "AAAA".toList (some "%u".toList) (some ['u']) (some ['q'])
        = Except.ok cmd ∧ cmd = "AAAAu?q".toList ∧ cmd ≠ "u?q".toList := by
  refine ⟨_, rfl, by decide, by decide⟩

/-- C2 counterexample: with override template `"%p%u"`, url `"U"` and a
9000-byte body, the formatted command would have 9001 bytes; the source's
`snprintf(cmd, BUFSIZ, ...)` silently keeps the first `BUFSIZ - 1` bytes — the
result is `Except.ok` (no error of any kind is surfaced; the error type has no
too-long case because the source has no length check) and the command that
reaches the subprocess is the truncated 8191-byte prefix, which has even lost
the URL. -/
theorem c2_silent_truncation :
    ∃ cmd, oauth_exec_post_cmd (some "%p%u".toList) (some ['U'])
        (some (List.replicate 9000 'A')) = Except.ok cmd ∧
      cmd = List.replicate (BUFSIZ - 1) 'A' ∧
      cmd.length < 9000 + 1 := by
  have h0 : oauth_exec_post_cmd (some "%p%u".toList) (some ['U'])
      (some (List.replicate 9000 'A'))
      = Except.ok ((fmt2 ('%' :: 's' :: '%' :: 's' :: [])
          [List.replicate 9000 'A', ['U']]).take (BUFSIZ - 1)) := rfl
  have h1 : fmt2 ('%' :: 's' :: '%' :: 's' :: [])
      [List.replicate 9000 'A', ['U']] = List.replicate 9000 'A' ++ (['U'] ++ []) := rfl
  rw [h0, h1]
  have hB : BUFSIZ = 8192 := rfl
  have h2 : (List.replicate 9000 'A' ++ (['U'] ++ [])).take (BUFSIZ - 1)
      = List.replicate (BUFSIZ - 1) 'A' := by
    rw [List.take_append_of_le_length (by rw [List.length_replicate]; omega)]
    rw [List.take_replicate]
    have hmin : min (BUFSIZ - 1) 9000 = BUFSIZ - 1 := by omega
    rw [hmin]
  rw [h2]
  refine ⟨_, rfl, rfl, ?_⟩
  rw [List.length_replicate]
  omega

/-- C10: `oauth_exec_get` guards against a NULL url before anything else
(`if (!u) return (NULL);`, line 262): for every query, template configuration,
fresh-buffer content and subprocess behavior, the call fails immediately with
the null-url outcome and the subprocess runner is never invoked.
`oauth_exec_post` has no such guard: with a NULL url it still consults the
template — an invalid template yields the invalid-template diagnostic, and a
valid one even produces a command (so the request proceeds, url
notwithstanding). -/
theorem c10_null_url_guard :
    (∀ (q env : Option CStr) (fresh : CStr) (oracle : CStr → Option CStr) (junk : Char),
        oauth_exec_get_cmd fresh env none q = Except.error ExecErr.nullUrl ∧
        oauth_exec_get_run oracle junk fresh env none q = none)
    ∧ (∀ p : Option CStr, oauth_exec_post_cmd (some "echo".toList) none p
        = Except.error (ExecErr.invalidTemplate "OAUTH_HTTP_CMD"))
    ∧ (∃ cmd, oauth_exec_post_cmd (some "%p%u".toList) none (some ['B'])
        = Except.ok cmd) :=
  ⟨fun _ _ _ _ _ => ⟨rfl, rfl⟩, fun _ => rfl, ⟨_, rfl⟩⟩

/-- C5: a POST template in which `strstr` finds no `"%p"` or no `"%u"`, and a
GET template with no `"%u"`, are rejected: the formatter returns the
invalid-template failure carrying the name of the override environment
variable printed by the `fprintf` diagnostic (lines 247 and 271), the caller
sees a NULL result, and the subprocess runner is never invoked (the
end-to-end functions return `none` for every possible subprocess oracle). -/
theorem c5_invalid_template_rejected
    (tplP tplG : CStr) (u p q : Option CStr) (uv fresh : CStr)
    (hP : strstrIdx pctP tplP = none ∨ strstrIdx pctU tplP = none)
    (hG : strstrIdx pctU tplG = none) :
    oauth_exec_post_cmd (some tplP) u p
        = Except.error (ExecErr.invalidTemplate "OAUTH_HTTP_CMD")
    ∧ oauth_exec_get_cmd fresh (some tplG) (some uv) q
        = Except.error (ExecErr.invalidTemplate "OAUTH_HTTP_GET_CMD")
    ∧ (∀ oracle junk, oauth_exec_post_run oracle junk (some tplP) u p = none)
    ∧ (∀ oracle junk,
        oauth_exec_get_run oracle junk fresh (some tplG) (some uv) q = none) := by
  have hpost : oauth_exec_post_cmd (some tplP) u p
      = Except.error (ExecErr.invalidTemplate "OAUTH_HTTP_CMD") := by
    unfold oauth_exec_post_cmd
    simp only [Option.getD]
    rcases hP with h | h
    · rw [h]
    · rw [h]
      cases strstrIdx pctP tplP <;> rfl
  have hget : oauth_exec_get_cmd fresh (some tplG) (some uv) q
      = Except.error (ExecErr.invalidTemplate "OAUTH_HTTP_GET_CMD") := by
    unfold oauth_exec_get_cmd
    simp only [Option.getD]
    rw [hG]
  refine ⟨hpost, hget, fun oracle junk => ?_, fun oracle junk => ?_⟩
  · unfold oauth_exec_post_run
    rw [hpost]
  · unfold oauth_exec_get_run
    rw [hget]

/-- Witness for C5: the template `"echo hi"` contains neither placeholder, so
both hypotheses hold and both formatters reject it. -/
theorem c5_witness :
    ((strstrIdx pctP "echo hi".toList = none ∨ strstrIdx pctU "echo hi".toList = none) ∧
      strstrIdx pctU "echo hi".toList = none) ∧
    (oauth_exec_post_cmd (some "echo hi".toList) (some ['u']) (some ['p'])
        = Except.error (ExecErr.invalidTemplate "OAUTH_HTTP_CMD")
    ∧ oauth_exec_get_cmd "xx".toList (some "echo hi".toList) (some ['u']) (some ['q'])
        = Except.error (ExecErr.invalidTemplate "OAUTH_HTTP_GET_CMD")
    ∧ (∀ oracle junk, oauth_exec_post_run oracle junk (some "echo hi".toList)
        (some ['u']) (some ['p']) = none)
    ∧ (∀ oracle junk, oauth_exec_get_run oracle junk "xx".toList
        (some "echo hi".toList) (some ['u']) (some ['q']) = none)) :=
  ⟨⟨Or.inl (by decide), by decide⟩,
    c5_invalid_template_rejected "echo hi".toList "echo hi".toList
      (some ['u']) (some ['p']) (some ['q']) ['u'] "xx".toList
      (Or.inl (by decide)) (by decide)⟩

/-- Helper: loop invariant for the capture loop — provided the buffer length
equals `alloc` on entry (true initially: both are 0/empty), every recorded
read event saw a capacity that is exactly the entry allocation plus the 1024
increment, requested at most 1024 bytes, and the capacity covers a maximal
read. -/
theorem captureLoop_trace_capacity (junk : Char) (fuel : Nat) :
    ∀ (todo : CStr) (len alloc : Nat) (data : CStr) (rcv : Nat) (eof : Bool),
      data.length = alloc →
      ∀ ev ∈ (captureLoop junk fuel todo len alloc data rcv eof).trace,
        ev.capAtRead = ev.allocBefore + 1024 ∧ ev.nRead ≤ 1024 ∧
        1024 ≤ ev.capAtRead := by
  induction fuel with
  | zero =>
    intro todo len alloc data rcv eof _ ev hev
    simp [captureLoop] at hev
  | succ fuel ih =>
    intro todo len alloc data rcv eof hlen ev hev
    by_cases hc : 0 < rcv ∧ eof = false
    · rw [captureLoop, if_pos hc] at hev
      simp only [List.mem_cons] at hev
      rcases hev with rfl | hev
      · refine ⟨?_, ?_, ?_⟩ <;> simp [List.length_append, List.length_replicate] <;> omega
      · refine ih _ _ _ _ _ _ ?_ ev hev
        simp only [List.length_append, List.length_take, List.length_drop,
          List.length_replicate]
        omega
    · rw [captureLoop, if_neg hc] at hev
      simp at hev

/-- C8: every read of the capture loop of `oauth_exec_shell` was preceded by
the `alloc += 1024; data = xrealloc(data, alloc)` growth: the capacity at the
moment of the `fread` equals the previous allocation plus the 1024-byte
increment, the read returns at most 1024 bytes, and the capacity covers even
a maximal 1024-byte read, so no single read can write past the end of the
buffer backing store. -/
theorem c8_capacity_grown_before_read (junk : Char) (out : CStr) (ev : ReadEv)
    (hev : ev ∈ (oauth_exec_shell junk (some out)).2) :
    ev.capAtRead = ev.allocBefore + 1024 ∧ ev.nRead ≤ 1024 ∧
    1024 ≤ ev.capAtRead := by
  have h2 : (oauth_exec_shell junk (some out)).2
      = (captureLoop junk (out.length + 2) out 0 0 [] 1 false).trace := rfl
  rw [h2] at hev
  exact captureLoop_trace_capacity junk (out.length + 2) out 0 0 [] 1 false rfl ev hev

/-- Witness for C8: the single read event of a run on empty output. -/
theorem c8_witness :
    ((⟨0, 1024, 0⟩ : ReadEv) ∈ (oauth_exec_shell 'x' (some [])).2) ∧
    ((⟨0, 1024, 0⟩ : ReadEv).capAtRead = (⟨0, 1024, 0⟩ : ReadEv).allocBefore + 1024 ∧
      (⟨0, 1024, 0⟩ : ReadEv).nRead ≤ 1024 ∧
      1024 ≤ (⟨0, 1024, 0⟩ : ReadEv).capAtRead) :=
  ⟨by decide, c8_capacity_grown_before_read 'x' [] ⟨0, 1024, 0⟩ (by decide)⟩

/-- C9: template resolution in both exec functions `strdup`s the template
before the in-place `*(++t) = 's'` rewrites: in the explicit-heap model every
pre-existing location — in particular the environment-supplied override (and
any location holding the built-in default) — holds exactly the same string
after resolution as before, for both the POST and the GET resolver. -/
theorem c9_template_private_copy (s : Store) (envLoc gLoc : Option Nat) (l : Nat)
    (h : l < s.next) :
    (resolve_post_heap s envLoc).1.mem l = s.mem l ∧
    (resolve_get_heap s gLoc).1.mem l = s.mem l := by
  have hne : l ≠ s.next := Nat.ne_of_lt h
  constructor
  · unfold resolve_post_heap
    cases envLoc <;>
      (simp only [Store.alloc, Store.write]
       split <;> simp [hne])
  · unfold resolve_get_heap
    cases gLoc <;>
      (simp only [Store.alloc, Store.write]
       split <;> simp [hne])

/-- Witness for C9: a one-location store holding an override template at
location 0; resolution leaves it untouched. -/
theorem c9_witness :
    ((0 : Nat) < (⟨fun _ => "%p%u".toList, 1⟩ : Store).next) ∧
    ((resolve_post_heap ⟨fun _ => "%p%u".toList, 1⟩ (some 0)).1.mem 0
        = (⟨fun _ => "%p%u".toList, 1⟩ : Store).mem 0 ∧
      (resolve_get_heap ⟨fun _ => "%p%u".toList, 1⟩ (some 0)).1.mem 0
        = (⟨fun _ => "%p%u".toList, 1⟩ : Store).mem 0) :=
  ⟨by decide,
    c9_template_private_copy ⟨fun _ => "%p%u".toList, 1⟩ (some 0) (some 0) 0 (by decide)⟩

/-- Helper: shift lemma specialized to the `"%p"` needle. -/
theorem strstrIdx_pctP_shift (X r : CStr) (hX : ∀ c ∈ X, c ≠ '%') :
    strstrIdx pctP (X ++ r) = (strstrIdx pctP r).map (· + X.length) :=
  strstrIdx_append_shift '%' ['p'] X r hX

/-- Helper: shift lemma specialized to the `"%u"` needle. -/
theorem strstrIdx_pctU_shift (X r : CStr) (hX : ∀ c ∈ X, c ≠ '%') :
    strstrIdx pctU (X ++ r) = (strstrIdx pctU r).map (· + X.length) :=
  strstrIdx_append_shift '%' ['u'] X r hX

/-- C1: for every POST template of the shape `A ++ "%p" ++ B ++ "%u" ++ C` or
`A ++ "%u" ++ B ++ "%p" ++ C` (the literal text `A`, `B`, `C` free of `%`, as
the data model's well-formed templates are) whose formatted command fits the
`BUFSIZ` buffer, the command produced by `oauth_exec_post` substitutes the
body into the `%p` slot and the URL into the `%u` slot — i.e. in the
template's literal placeholder order — and the placeholder positions hold the
substituted values, the placeholders themselves being gone. -/
theorem c1_post_substitution_order
    (A B C u p : CStr)
    (hA : ∀ c ∈ A, c ≠ '%') (hB : ∀ c ∈ B, c ≠ '%') (hC : ∀ c ∈ C, c ≠ '%') :
    ((A ++ p ++ B ++ u ++ C).length ≤ BUFSIZ - 1 →
      oauth_exec_post_cmd (some (A ++ '%' :: 'p' :: (B ++ '%' :: 'u' :: C)))
          (some u) (some p)
        = Except.ok (A ++ p ++ B ++ u ++ C))
    ∧ ((A ++ u ++ B ++ p ++ C).length ≤ BUFSIZ - 1 →
      oauth_exec_post_cmd (some (A ++ '%' :: 'u' :: (B ++ '%' :: 'p' :: C)))
          (some u) (some p)
        = Except.ok (A ++ u ++ B ++ p ++ C)) := by
  constructor
  · intro hlen
    have hip : strstrIdx pctP (A ++ '%' :: 'p' :: (B ++ '%' :: 'u' :: C))
        = some A.length := by
      rw [strstrIdx_pctP_shift A _ hA, strstrIdx_pctP_here]
      simp
    have hiu : strstrIdx pctU (A ++ '%' :: 'p' :: (B ++ '%' :: 'u' :: C))
        = some (A.length + B.length + 2) := by
      rw [strstrIdx_pctU_shift A _ hA, strstrIdx_pctU_skip,
        strstrIdx_pctU_shift B _ hB, strstrIdx_pctU_here]
      simp
      omega
    have hset : ((A ++ '%' :: 'p' :: (B ++ '%' :: 'u' :: C)).set (A.length + 1) 's').set
        (A.length + B.length + 2 + 1) 's'
        = A ++ '%' :: 's' :: (B ++ '%' :: 's' :: C) := by
      rw [set_append_add A ('%' :: 'p' :: (B ++ '%' :: 'u' :: C)) 1 's']
      rw [show ('%' :: 'p' :: (B ++ '%' :: 'u' :: C)).set 1 's'
          = '%' :: 's' :: (B ++ '%' :: 'u' :: C) from rfl]
      rw [show A.length + B.length + 2 + 1 = A.length + (B.length + 3) from by omega]
      rw [set_append_add A ('%' :: 's' :: (B ++ '%' :: 'u' :: C)) (B.length + 3) 's']
      rw [show B.length + 3 = (B.length + 2) + 1 from by omega, List.set_cons_succ]
      rw [show B.length + 2 = (B.length + 1) + 1 from by omega, List.set_cons_succ]
      rw [set_append_add B ('%' :: 'u' :: C) 1 's']
      rw [show ('%' :: 'u' :: C).set 1 's' = '%' :: 's' :: C from rfl]
    have hfmt : fmt2 (A ++ '%' :: 's' :: (B ++ '%' :: 's' :: C)) [p, u]
        = A ++ (p ++ (B ++ (u ++ C))) := by
      rw [fmt2_append_no_pct A _ _ hA, fmt2_pct_s,
        fmt2_append_no_pct B _ _ hB, fmt2_pct_s, fmt2_no_pct C _ hC]
    have hgt : ¬ (A.length + 1 > A.length + B.length + 2 + 1) := by omega
    simp only [oauth_exec_post_cmd, Option.getD]
    rw [hip, hiu]
    dsimp only
    simp only [if_neg hgt, printfArg]
    rw [hset, hfmt]
    rw [List.take_of_length_le]
    · simp [List.append_assoc]
    · simp only [List.length_append] at hlen ⊢
      omega
  · intro hlen
    have hip : strstrIdx pctP (A ++ '%' :: 'u' :: (B ++ '%' :: 'p' :: C))
        = some (A.length + B.length + 2) := by
      rw [strstrIdx_pctP_shift A _ hA, strstrIdx_pctP_skip,
        strstrIdx_pctP_shift B _ hB, strstrIdx_pctP_here]
      simp
      omega
    have hiu : strstrIdx pctU (A ++ '%' :: 'u' :: (B ++ '%' :: 'p' :: C))
        = some A.length := by
      rw [strstrIdx_pctU_shift A _ hA, strstrIdx_pctU_here]
      simp
    have hset : ((A ++ '%' :: 'u' :: (B ++ '%' :: 'p' :: C)).set
        (A.length + B.length + 2 + 1) 's').set (A.length + 1) 's'
        = A ++ '%' :: 's' :: (B ++ '%' :: 's' :: C) := by
      rw [show A.length + B.length + 2 + 1 = A.length + (B.length + 3) from by omega]
      rw [set_append_add A ('%' :: 'u' :: (B ++ '%' :: 'p' :: C)) (B.length + 3) 's']
      rw [show B.length + 3 = (B.length + 2) + 1 from by omega, List.set_cons_succ]
      rw [show B.length + 2 = (B.length + 1) + 1 from by omega, List.set_cons_succ]
      rw [set_append_add B ('%' :: 'p' :: C) 1 's']
      rw [show ('%' :: 'p' :: C).set 1 's' = '%' :: 's' :: C from rfl]
      rw [set_append_add A ('%' :: 'u' :: (B ++ '%' :: 's' :: C)) 1 's']
      rw [show ('%' :: 'u' :: (B ++ '%' :: 's' :: C)).set 1 's'
          = '%' :: 's' :: (B ++ '%' :: 's' :: C) from rfl]
    have hfmt : fmt2 (A ++ '%' :: 's' :: (B ++ '%' :: 's' :: C)) [u, p]
        = A ++ (u ++ (B ++ (p ++ C))) := by
      rw [fmt2_append_no_pct A _ _ hA, fmt2_pct_s,
        fmt2_append_no_pct B _ _ hB, fmt2_pct_s, fmt2_no_pct C _ hC]
    have hgt : A.length + B.length + 2 + 1 > A.length + 1 := by omega
    simp only [oauth_exec_post_cmd, Option.getD]
    rw [hip, hiu]
    dsimp only
    simp only [if_pos hgt, printfArg]
    rw [hset, hfmt]
    rw [List.take_of_length_le]
    · simp [List.append_assoc]
    · simp only [List.length_append] at hlen ⊢
      omega

/-- Witness for C1: the template `"curl -d '%p' '%u' "` with a concrete URL
and body, small enough to fit the command buffer. -/
theorem c1_witness :
    ((∀ c ∈ "curl -d '".toList, c ≠ '%') ∧ (∀ c ∈ "' '".toList, c ≠ '%') ∧
      (∀ c ∈ "' ".toList, c ≠ '%') ∧
      ("curl -d '".toList ++ "k=v".toList ++ "' '".toList ++ "http://x".toList
        ++ "' ".toList).length ≤ BUFSIZ - 1) ∧
    oauth_exec_post_cmd
        (some ("curl -d '".toList ++ '%' :: 'p' ::
          ("' '".toList ++ '%' :: 'u' :: "' ".toList)))
        (some "http://x".toList) (some "k=v".toList)
      = Except.ok ("curl -d '".toList ++ "k=v".toList ++ "' '".toList
          ++ "http://x".toList ++ "' ".toList) :=
  ⟨⟨by decide, by decide, by decide, by decide⟩,
    (c1_post_substitution_order "curl -d '".toList "' '".toList "' ".toList
      "http://x".toList "k=v".toList (by decide) (by decide) (by decide)).1 (by decide)⟩

end Oauth
